import Mathlib

/-!
Shallow embedding of lispy (lispy.py): the value model, the host-level
equality used by `Type.__eq__`, the lexer, the parser and the tree-walking
interpreter, together with theorems settling the frozen claims about them.

Conventions of the embedding:
* Python `int` is modelled as `Int`, Python `float` as `ℚ` (binary-float
  rounding is outside the model; the claims below only depend on exact
  small decimal values and on result type tags).
* Host exceptions (`TypeError`, `ValueError`, `KeyError`, `IndexError`,
  `ZeroDivisionError`, `UnboundLocalError`) and the interpreter's own
  `LispyError` subclasses are all modelled as constructors of one `Err`
  type; the distinction between host errors and `LispyError`s matters for
  the claims and is kept in the constructor names.
* The recursive evaluator is modelled with a fuel parameter; fuel
  exhaustion is the constructor `Err.outOfFuel`, which never occurs on the
  concrete runs below (they get ample fuel).
* Mutable interpreter state (the global variable table, the stack of local
  scopes, and the `defun` additions to the function registry) is passed
  explicitly; every evaluator function returns its result together with
  the state, also on the error path, mirroring how a raised Python
  exception leaves the interpreter object's state behind.
-/

namespace Lispy

/-- The closed value model of lispy: one constructor per `Type` subclass
(`Nil`, `T`, `Integer`, `Float`, `String`, `Symbol`, `List`). -/
inductive Value where
  | nil
  | t
  | integer (n : Int)
  | float (q : ℚ)
  | string (s : String)
  | symbol (s : String)
  | list (elems : List Value)
deriving Repr

/-- Error kinds: the three `LispyError` subclasses of `Interpreter`, the
lexer's `InvalidInputError`, the host exceptions reachable from the code,
fuel exhaustion, and a marker for host behaviour outside this model
(console I/O, non-rational float powers). -/
inductive Err where
  | undefinedSymbol
  | undefinedFunction
  | undefinedVariable
  | typeError
  | valueError
  | keyError
  | indexError
  | zeroDivision
  | unboundLocal
  | invalidInput
  | outOfFuel
  | outOfModel
deriving DecidableEq, Repr

mutual

/-- Models Python `x == y` on `Type` instances (`Type.__eq__` is
`self.value == other`; `Symbol.__eq__` additionally checks the class).
The host comparison `self.value == other` falls back to the reflected
`other.__eq__(self.value)`, i.e. to a host-value comparison, so distinct
variant tags can compare equal: `True == 1`, `1 == 1.0`, and Python lists
compare elementwise. `None` only equals `None`. -/
def pyEq : Value → Value → Bool
  | .symbol a, .symbol b => a == b
  | .symbol _, _ => false
  | _, .symbol _ => false
  | .nil, .nil => true
  | .nil, _ => false
  | _, .nil => false
  | .t, .t => true
  | .t, .integer n => n == 1
  | .t, .float q => q == 1
  | .integer n, .t => n == 1
  | .float q, .t => q == 1
  | .t, _ => false
  | _, .t => false
  | .integer n, .integer m => n == m
  | .integer n, .float q => (n : ℚ) == q
  | .float q, .integer n => q == (n : ℚ)
  | .float a, .float b => a == b
  | .string a, .string b => a == b
  | .list as, .list bs => pyEqList as bs
  | _, _ => false
termination_by structural a _ => a

/-- Python list `==`: elementwise, equal lengths. -/
def pyEqList : List Value → List Value → Bool
  | [], [] => true
  | a :: as, b :: bs => pyEq a b && pyEqList as bs
  | _, _ => false
termination_by structural a _ => a

end

/-- Models Python truthiness of a `Type` instance: `Nil.__bool__` is
`False`, `List` has `__len__` so an empty `List` is falsy, and every other
instance is truthy (no other subclass defines `__bool__` or `__len__`). -/
def pyTruthy : Value → Bool
  | .nil => false
  | .list [] => false
  | _ => true

/-- A host-level number as produced by Python arithmetic on the `.value`
payloads: either an `int` or a `float`. -/
inductive PyNum where
  | int (i : Int)
  | float (q : ℚ)
deriving DecidableEq, Repr

/-- The host numeric payload of a `Value`, for the arithmetic builtins:
`Integer`/`Float` payloads are numbers, and `T.value` is the Python bool
`True`, which arithmetic treats as the int `1`.  Every other payload
(`None`, `str`, `list`) makes host arithmetic raise `TypeError`. -/
def toPyNum : Value → Option PyNum
  | .integer n => some (.int n)
  | .float q => some (.float q)
  | .t => some (.int 1)
  | _ => none

/-- Rational view of a host number (Python coerces int to float exactly in
the ranges used here). -/
def PyNum.toQ : PyNum → ℚ
  | .int i => (i : ℚ)
  | .float q => q

/-- Host `+` on numbers: int when both are ints, float otherwise. -/
def pyAdd : PyNum → PyNum → PyNum
  | .int a, .int b => .int (a + b)
  | a, b => .float (a.toQ + b.toQ)

/-- Host `-` on numbers. -/
def pySub : PyNum → PyNum → PyNum
  | .int a, .int b => .int (a - b)
  | a, b => .float (a.toQ - b.toQ)

/-- Host `*` on numbers. -/
def pyMul : PyNum → PyNum → PyNum
  | .int a, .int b => .int (a * b)
  | a, b => .float (a.toQ * b.toQ)

/-- Python-dict style update of an association list: replace the value of
an existing key in place, otherwise append at the end (insertion order is
preserved as in a Python dict; only `Symbol` keys occur, modelled by the
symbol's name string). -/
def dictSet {α : Type} : List (String × α) → String → α → List (String × α)
  | [], k, v => [(k, v)]
  | (k', v') :: rest, k, v =>
      if k' = k then (k, v) :: rest else (k', v') :: dictSet rest k v

/-- A user function registered by `Interpreter._defun`: the raw (unparsed,
unevaluated) parameter-name value and the single body value. -/
structure UserFun where
  argNames : Value
  instructions : Value
deriving Repr

/-- The mutable state of `Interpreter`: the global variable table, the
stack of local scopes (innermost first, as `local_variable_contexts`), and
the `defun`-added entries of the `functions` dict (the builtin entries of
`special_functions` / `regular_functions` are fixed and kept as name
lists below). -/
structure InterpState where
  globalVariableContext : List (String × Value)
  localVariableContexts : List (List (String × Value))
  userFunctions : List (String × UserFun)
deriving Repr

/-- A fresh `Interpreter()`: empty global table, no local scopes, no
user-defined functions. -/
def initialState : InterpState := ⟨[], [], []⟩

/-- The keys of `Interpreter.special_functions`. -/
def specialNames : List String :=
  ["quote", "defun", "if", "let", "progn", "set", "get"]

/-- The keys of `Interpreter.regular_functions`. -/
def regularNames : List String :=
  ["list", "car", "cdr", "cons", "eq", "=", "+", "sum", "-", "sub",
   "*", "mul", "/", "div", "pow", "write", "read", "concat",
   "float", "int", "str"]

/-- Models `Interpreter._find_local_variable_context` followed by the
lookup: search the local scopes innermost-to-outermost. -/
def lookupLocal : List (List (String × Value)) → String → Option Value
  | [], _ => none
  | c :: rest, name =>
      match c.lookup name with
      | some v => some v
      | none => lookupLocal rest name

/-- Models `Interpreter._get_variable`'s successful lookups: local scopes
first, then the global table (`none` exactly when `_is_variable` is
false). -/
def lookupVariable (st : InterpState) (name : String) : Option Value :=
  match lookupLocal st.localVariableContexts name with
  | some v => some v
  | none => st.globalVariableContext.lookup name

/-- Models `Interpreter._set_local_variable`: write into the innermost
local scope.  The empty-stack case cannot occur in the program (`_let`
always pushes a scope first); it is mapped to a no-op. -/
def setLocalVariable (st : InterpState) (name : String) (v : Value) : InterpState :=
  match st.localVariableContexts with
  | c :: rest => { st with localVariableContexts := dictSet c name v :: rest }
  | [] => st

/-- Models `Interpreter._create_local_variable_context`. -/
def pushScope (st : InterpState) : InterpState :=
  { st with localVariableContexts := [] :: st.localVariableContexts }

/-- Models `Interpreter._delete_local_variable_context`. -/
def popScope (st : InterpState) : InterpState :=
  { st with localVariableContexts := st.localVariableContexts.drop 1 }

/-- Value is an `Integer`. -/
def isIntV : Value → Bool
  | .integer _ => true
  | _ => false

/-- Value is a `Float`. -/
def isFloatV : Value → Bool
  | .float _ => true
  | _ => false

/-- Value is numeric in the sense of the arithmetic claims: an `Integer`
or a `Float`. -/
def isNumV : Value → Bool
  | .integer _ => true
  | .float _ => true
  | _ => false

/-- The classification made by `Interpreter._cast_arithmetic_values`:
`Integer` iff every argument's class is `Integer`, else `Float`. -/
def allIntegerClass (args : List Value) : Bool :=
  args.all isIntV

/-- Models `Interpreter._list`. -/
def listOp (args : List Value) : Except Err Value :=
  match args with
  | [] => .ok .nil
  | _ => .ok (.list args)

/-- Models `Interpreter._car`: `Nil` or an empty `List` give `Nil`, a
non-empty `List` gives its head, and any other argument makes the host
`len` call raise `TypeError`. -/
def carOp (l : Value) : Except Err Value :=
  match l with
  | .nil => .ok .nil
  | .list [] => .ok .nil
  | .list (x :: _) => .ok x
  | _ => .error .typeError

/-- Models `Interpreter._cdr`: `Nil` in, `Nil` out; a `List`'s tail, or
`Nil` when the tail is empty; slicing any other value raises `TypeError`. -/
def cdrOp (l : Value) : Except Err Value :=
  match l with
  | .nil => .ok .nil
  | .list es =>
      match es.drop 1 with
      | [] => .ok .nil
      | rest => .ok (.list rest)
  | _ => .error .typeError

/-- Models `Interpreter._cons`: a falsy second argument (`Nil` or an empty
`List`) gives a singleton; a non-empty `List` is prepended to; unpacking
any other truthy value raises `TypeError`. -/
def consOp (x l : Value) : Except Err Value :=
  if pyTruthy l then
    match l with
    | .list es => .ok (.list (x :: es))
    | _ => .error .typeError
  else .ok (.list [x])

/-- Models `Interpreter._equal` (`eq` / `=`). -/
def equalOp (x y : Value) : Except Err Value :=
  .ok (if pyEq x y then .t else .nil)

/-- Host `sum` over the `.value` payloads: a left fold of `+` starting
from the int `0`; `none` models the `TypeError` raised when a payload is
not numeric. -/
def pySumFrom (acc : PyNum) : List Value → Option PyNum
  | [] => some acc
  | a :: rest =>
      match toPyNum a with
      | some n => pySumFrom (pyAdd acc n) rest
      | none => none

/-- `sum([a.value for a in args])`. -/
def pySum (args : List Value) : Option PyNum :=
  pySumFrom (.int 0) args

/-- Wrap a host number in the output class chosen by
`_cast_arithmetic_values`; the class constructors type-check their
payload, so an int payload in class `Float` (or a float payload in class
`Integer`) raises `TypeError`. -/
def castResult (intClass : Bool) (r : PyNum) : Except Err Value :=
  match intClass, r with
  | true, .int i => .ok (.integer i)
  | true, .float _ => .error .typeError
  | false, .float q => .ok (.float q)
  | false, .int _ => .error .typeError

/-- Models `Interpreter._sum`. -/
def sumOp (args : List Value) : Except Err Value :=
  match pySum args with
  | none => .error .typeError
  | some r => castResult (allIntegerClass args) r

/-- Models the loop of `Interpreter._mul` (`result = 1`, then
`result *= arg.value`, a left fold). -/
def pyProdFrom (acc : PyNum) : List Value → Option PyNum
  | [] => some acc
  | a :: rest =>
      match toPyNum a with
      | some n => pyProdFrom (pyMul acc n) rest
      | none => none

/-- The product of the payloads starting from the int `1`. -/
def pyProd (args : List Value) : Option PyNum :=
  pyProdFrom (.int 1) args

/-- Models `Interpreter._mul`. -/
def mulOp (args : List Value) : Except Err Value :=
  match pyProd args with
  | none => .error .typeError
  | some r => castResult (allIntegerClass args) r

/-- The single-argument branch of `Interpreter._sub`: the source executes
`x.value *= -1; result = x`, an in-place negation of the operand object;
this value-level model returns the resulting value (`Integer`/`Float`
payloads negate; a `str` payload repeated `-1` times becomes the empty
string; the remaining payloads are out of this value model — `T` would
become a `T` holding `-1`, a host `list` payload would be emptied in
place).  The aliasing consequences of the mutation are modelled
separately by `hSubSingle` below. -/
def subNegate : Value → Except Err Value
  | .integer n => .ok (.integer (-n))
  | .float q => .ok (.float (-q))
  | .string _ => .ok (.string "")
  | .symbol _ => .ok (.symbol "")
  | .nil => .error .typeError
  | _ => .error .outOfModel

/-- Models `Interpreter._sub` proper: subtract when `y` is truthy,
negate in place otherwise (`y` omitted or falsy). -/
def subOp (x : Value) (y : Option Value) : Except Err Value :=
  match y with
  | some yv =>
      if pyTruthy yv then
        match toPyNum x, toPyNum yv with
        | some a, some b => castResult (allIntegerClass [x, yv]) (pySub a b)
        | _, _ => .error .typeError
      else subNegate x
  | none => subNegate x

/-- Models `Interpreter._div`: host float division, always `Float`, with
`ZeroDivisionError` on a zero divisor and `TypeError` on non-numeric
operands. -/
def divOp (x y : Value) : Except Err Value :=
  match toPyNum x, toPyNum y with
  | some a, some b =>
      if b.toQ = 0 then .error .zeroDivision
      else .ok (.float (a.toQ / b.toQ))
  | _, _ => .error .typeError

/-- Host `x ** y` on numbers.  An all-int power with non-negative exponent
stays an int; a negative int exponent produces a host float (or
`ZeroDivisionError` on base `0`).  A float power with an integral
exponent is the exact rational power; a non-integral exponent leaves the
rational model (`outOfModel`). -/
def pyPow : PyNum → PyNum → Except Err PyNum
  | .int a, .int b =>
      if 0 ≤ b then .ok (.int (a ^ b.toNat))
      else if a = 0 then .error .zeroDivision
      else .ok (.float ((a : ℚ) ^ b))
  | a, b =>
      if b.toQ.den = 1 then
        if a.toQ = 0 ∧ b.toQ < 0 then .error .zeroDivision
        else .ok (.float (a.toQ ^ b.toQ.num))
      else .error .outOfModel

/-- Models `Interpreter._pow`. -/
def powOp (x y : Value) : Except Err Value :=
  match toPyNum x, toPyNum y with
  | some a, some b =>
      match pyPow a b with
      | .error e => .error e
      | .ok r => castResult (allIntegerClass [x, y]) r
  | _, _ => .error .typeError

/-- Models `Interpreter._concat`: `str.join` over the payloads, which
raises `TypeError` unless every payload is a `str`. -/
def concatOp (args : List Value) : Except Err Value :=
  let rec strings : List Value → Option (List String)
    | [] => some []
    | .string s :: rest => (strings rest).map (s :: ·)
    | _ => none
  match strings args with
  | some ss => .ok (.string (String.join ss))
  | none => .error .typeError

/-- The character of a decimal digit. -/
def digitChar (d : Nat) : Char :=
  Char.ofNat (48 + d % 10)

/-- The digit loop, with explicit fuel (one unit per division by ten;
`fuel = n` always suffices, see `natDigitsGo_eq`). -/
def natDigitsGo : Nat → Nat → List Char
  | 0, n => [digitChar n]
  | fuel + 1, n =>
      if n < 10 then [digitChar n]
      else natDigitsGo fuel (n / 10) ++ [digitChar (n % 10)]

/-- Decimal digits of a natural number, most significant first (the digit
list of the host's `str(int)`). -/
def natDigits (n : Nat) : List Char :=
  natDigitsGo n n

/-- Models the host's `str` on an `int`: optional minus sign followed by
the decimal digits.  This is also `Type.__repr__` for `Integer`. -/
def intRepr (n : Int) : String :=
  if n < 0 then ⟨'-' :: natDigits n.natAbs⟩ else ⟨natDigits n.natAbs⟩

/-- Numeric value of a digit list (the accumulator loop of the host's
`int`). -/
def digitsVal (cs : List Char) : Nat :=
  cs.foldl (fun a c => 10 * a + (c.toNat - 48)) 0

/-- Models the host `int()` conversion on the strings that can reach it
here: an optional minus sign followed by digits (the integer token
grammar guarantees this shape). -/
def pyIntOfString (s : String) : Int :=
  match s.data with
  | '-' :: ds => -(digitsVal ds : Int)
  | ds => (digitsVal ds : Int)

/-- Models the host `float()` conversion on an optional sign, digits and
at most one decimal point.  Exponent, underscore, `inf` and `nan` forms
are outside this model (no claim evaluates them). `none` models
`ValueError`. -/
def pyFloatOfString (s : String) : Option ℚ :=
  let cs := s.data
  let (sign, cs) : ℚ × List Char :=
    match cs with
    | '+' :: rest => (1, rest)
    | '-' :: rest => (-1, rest)
    | _ => (1, cs)
  let intPart := cs.takeWhile Char.isDigit
  let rest := cs.dropWhile Char.isDigit
  match rest with
  | [] => if intPart = [] then none else some (sign * (digitsVal intPart : ℚ))
  | '.' :: frac =>
      if frac.all Char.isDigit ∧ (intPart ≠ [] ∨ frac ≠ []) then
        some (sign * ((digitsVal intPart : ℚ) +
          (digitsVal frac : ℚ) / (10 : ℚ) ^ frac.length))
      else none
  | _ => none

/-- Models the host's decimal rendering of a float (`str(float)`) for
values with a short terminating decimal expansion — the only floats the
claims ever display.  Other values are outside the binary-float model. -/
def floatRepr (q : ℚ) : String :=
  match (List.range 18).find? (fun k => (q * (10 : ℚ) ^ k).den == 1) with
  | some k =>
      let m := (q * (10 : ℚ) ^ k).num.natAbs
      let sign := if q < 0 then "-" else ""
      if k = 0 then sign ++ (⟨natDigits m⟩ : String) ++ ".0"
      else
        let ip := m / 10 ^ k
        let fp := m % 10 ^ k
        let fs : List Char := natDigits fp
        sign ++ (⟨natDigits ip⟩ : String) ++ "." ++
          (⟨List.replicate (k - fs.length) '0' ++ fs⟩ : String)
  | none => "<out-of-model float>"

/-- Truncation toward zero, the host's `int(float)`. -/
def ratTrunc (q : ℚ) : Int :=
  if 0 ≤ q then q.floor else -((-q).floor)

/-- The host `float(arg.value)` over each payload kind: numbers convert,
`True` becomes `1.0`, `str` payloads (of `String` and `Symbol`) are
parsed, `None` and `list` payloads raise `TypeError`. -/
def pyFloatOfValue (a : Value) : Except Err ℚ :=
  match a with
  | .integer n => .ok (n : ℚ)
  | .float q => .ok q
  | .t => .ok 1
  | .string s =>
      match pyFloatOfString s with
      | some q => .ok q
      | none => .error .valueError
  | .symbol s =>
      match pyFloatOfString s with
      | some q => .ok q
      | none => .error .valueError
  | .nil => .error .typeError
  | .list _ => .error .typeError

/-- Models `Interpreter._float`. -/
def floatOp (a : Value) : Except Err Value :=
  (pyFloatOfValue a).map .float

/-- Models `Interpreter._int` (`int(float(arg.value))`). -/
def intOp (a : Value) : Except Err Value :=
  (pyFloatOfValue a).map (fun q => .integer (ratTrunc q))

mutual

/-- The display rendering `Type.__repr__`: `nil`, `t`, decimal numbers,
bare strings, `:`-prefixed symbols, and space-joined parenthesized
lists. -/
def render : Value → String
  | .nil => "nil"
  | .t => "t"
  | .integer n => intRepr n
  | .float q => floatRepr q
  | .string s => s
  | .symbol s => ":" ++ s
  | .list es => "(" ++ String.intercalate " " (renderList es) ++ ")"
termination_by structural v => v

/-- `repr` of each element of a host list of values. -/
def renderList : List Value → List String
  | [] => []
  | v :: rest => render v :: renderList rest
termination_by structural vs => vs

end

/-- Models `Interpreter._str` (`str(arg.value)`): note that `T` and `Nil`
render their host payloads `True` and `None`, and a `List` payload
renders as a host list literal of element reprs. -/
def strOp (a : Value) : Except Err Value :=
  match a with
  | .integer n => .ok (.string (intRepr n))
  | .float q => .ok (.string (floatRepr q))
  | .string s => .ok (.string s)
  | .symbol s => .ok (.string s)
  | .t => .ok (.string "True")
  | .nil => .ok (.string "None")
  | .list es => .ok (.string ("[" ++ String.intercalate ", " (renderList es) ++ "]"))

/-- Dispatch over `Interpreter.regular_functions` with already-evaluated
arguments.  Wrong argument counts model the host's `TypeError` for a
mismatched call.  `write` returns `Nil` (its printing is external I/O,
elided here); `read` blocks on console input and is outside the model. -/
def applyRegular (name : String) (args : List Value) : Except Err Value :=
  match name, args with
  | "list", args => listOp args
  | "car", [l] => carOp l
  | "cdr", [l] => cdrOp l
  | "cons", [x, l] => consOp x l
  | "eq", [x, y] => equalOp x y
  | "=", [x, y] => equalOp x y
  | "+", args => sumOp args
  | "sum", args => sumOp args
  | "-", [x] => subOp x none
  | "-", [x, y] => subOp x (some y)
  | "sub", [x] => subOp x none
  | "sub", [x, y] => subOp x (some y)
  | "*", args => mulOp args
  | "mul", args => mulOp args
  | "/", [x, y] => divOp x y
  | "div", [x, y] => divOp x y
  | "pow", [x, y] => powOp x y
  | "write", [_] => .ok .nil
  | "write", [_, _] => .ok .nil
  | "read", [] => .error .outOfModel
  | "concat", args => concatOp args
  | "float", [a] => floatOp a
  | "int", [a] => intOp a
  | "str", [a] => strOp a
  | _, _ => .error .typeError

/-- The binding loop of `Interpreter._let` for the `let` special form:
`for name, value in var_defs` over the raw bindings list.  Each binding
must unpack to exactly two elements (`ValueError` otherwise,
`TypeError` if it is not iterable), the name must be hashable (a
`Symbol`), and the value is stored *unevaluated*.  Errors abort mid-loop,
leaving the bindings made so far in the already-pushed scope. -/
def bindVarDefs (st : InterpState) : List Value → Except Err Unit × InterpState
  | [] => (.ok (), st)
  | b :: rest =>
      match b with
      | .list [n, v] =>
          match n with
          | .symbol s => bindVarDefs (setLocalVariable st s v) rest
          | _ => (.error .typeError, st)
      | .list _ => (.error .valueError, st)
      | _ => (.error .typeError, st)

/-- The binding loop of `Interpreter._let` when called from a `defun`
closure: `var_defs` is a host `zip` of tuples, so no unpack errors can
occur, but names must still be hashable `Symbol`s. -/
def bindPairs (st : InterpState) : List (Value × Value) → Except Err Unit × InterpState
  | [] => (.ok (), st)
  | (n, v) :: rest =>
      match n with
      | .symbol s => bindPairs (setLocalVariable st s v) rest
      | _ => (.error .typeError, st)

/-- The type of `self.execute` as seen by the other interpreter methods:
the helpers below mirror the source's methods and receive the evaluator
as an explicit callback, so that the single fueled `execute` below is the
only recursive function. -/
abbrev Evaluator : Type :=
  InterpState → Value → Except Err Value × InterpState

/-- Models `Interpreter._evaluate_args`: strictly left-to-right; a `List`
argument is executed; a `Symbol` argument is resolved as a variable when
bound (local scopes then global), and otherwise passed to `execute`,
which raises `UndefinedSymbol`; other arguments pass through. -/
def evaluateArgsF (exec : Evaluator) : InterpState → List Value → Except Err (List Value) × InterpState
  | st, [] => (.ok [], st)
  | st, arg :: rest =>
      let step : Except Err Value × InterpState :=
        match arg with
        | .list _ => exec st arg
        | .symbol s =>
            match lookupVariable st s with
            | some v => (.ok v, st)
            | none => exec st arg
        | _ => (.ok arg, st)
      match step with
      | (.error e, st') => (.error e, st')
      | (.ok v, st') =>
          match evaluateArgsF exec st' rest with
          | (.error e, st'') => (.error e, st'')
          | (.ok vs, st'') => (.ok (v :: vs), st'')

/-- Models `Interpreter._evaluate_if_list`: execute `List` values, pass
everything else through unchanged. -/
def evaluateIfListF (exec : Evaluator) (st : InterpState) (v : Value) : Except Err Value × InterpState :=
  match v with
  | .list _ => exec st v
  | _ => (.ok v, st)

/-- The list comprehension `[self._evaluate_if_list(a) for a in arg_values]`
in a `defun` closure: left-to-right, aborting on the first error. -/
def evaluateIfListEachF (exec : Evaluator) : InterpState → List Value → Except Err (List Value) × InterpState
  | st, [] => (.ok [], st)
  | st, a :: rest =>
      match evaluateIfListF exec st a with
      | (.error e, st') => (.error e, st')
      | (.ok v, st') =>
          match evaluateIfListEachF exec st' rest with
          | (.error e, st'') => (.error e, st'')
          | (.ok vs, st'') => (.ok (v :: vs), st'')

/-- The body loop shared by `Interpreter._progn` and `Interpreter._let`:
`result = Nil()`, then `result = self.execute(instruction)` for each
instruction, returning the last result. -/
def prognLoopF (exec : Evaluator) : InterpState → List Value → Except Err Value × InterpState
  | st, [] => (.ok .nil, st)
  | st, [i] => exec st i
  | st, i :: rest =>
      match exec st i with
      | (.error e, st') => (.error e, st')
      | (.ok _, st') => prognLoopF exec st' rest

/-- Models `Interpreter._let` as invoked by the `let` special form:
push a fresh scope, bind the raw `var_defs`, run the body as `progn`,
and pop the scope only on the success path — the source has no
`try`/`finally`, so an error propagates with the scope still pushed. -/
def letFormF (exec : Evaluator) (st : InterpState) (varDefs : Value) (instrs : List Value) :
    Except Err Value × InterpState :=
  let st1 := pushScope st
  match varDefs with
  | .list bs =>
      match bindVarDefs st1 bs with
      | (.error e, st2) => (.error e, st2)
      | (.ok _, st2) =>
          match prognLoopF exec st2 instrs with
          | (.error e, st3) => (.error e, st3)
          | (.ok r, st3) => (.ok r, popScope st3)
  | _ => (.error .typeError, st1)

/-- Models `Interpreter._if`: the condition and the chosen branch are
evaluated only if they are lists; the missing else-branch defaults to
`Nil`. -/
def ifFormF (exec : Evaluator) (st : InterpState) (c tE fE : Value) :
    Except Err Value × InterpState :=
  match evaluateIfListF exec st c with
  | (.error e, st') => (.error e, st')
  | (.ok condRes, st') =>
      if pyEq condRes .nil then evaluateIfListF exec st' fE
      else evaluateIfListF exec st' tE

/-- Models `Interpreter._set`: the value is evaluated if it is a list,
then stored in the global table under the raw name (which must be a
hashable `Symbol`); returns `None`, which `execute` maps to `Nil`. -/
def setFormF (exec : Evaluator) (st : InterpState) (n v : Value) :
    Except Err Value × InterpState :=
  match evaluateIfListF exec st v with
  | (.error e, st') => (.error e, st')
  | (.ok ev, st') =>
      match n with
      | .symbol s =>
          (.ok .nil, { st' with globalVariableContext := dictSet st'.globalVariableContext s ev })
      | _ => (.error .typeError, st')

/-- Dispatch over `Interpreter.special_functions` (arguments arrive
unevaluated).  `defun` registers the raw parameter list and body under
the (hashable `Symbol`) name and returns the name; `get` is a raw dict
access, so an absent key raises the host `KeyError`, not
`UndefinedVariableError`.  Wrong argument counts model the host
`TypeError`. -/
def applySpecialF (exec : Evaluator) (st : InterpState) (name : String) (args : List Value) :
    Except Err Value × InterpState :=
  match name, args with
  | "quote", [a] => (.ok a, st)
  | "defun", [n, ps, body] =>
      match n with
      | .symbol s =>
          (.ok n, { st with userFunctions := dictSet st.userFunctions s ⟨ps, body⟩ })
      | _ => (.error .typeError, st)
  | "if", [c, tE] => ifFormF exec st c tE .nil
  | "if", [c, tE, fE] => ifFormF exec st c tE fE
  | "let", varDefs :: instrs => letFormF exec st varDefs instrs
  | "progn", instrs => prognLoopF exec st instrs
  | "set", [n, v] => setFormF exec st n v
  | "get", [n] =>
      match n with
      | .symbol s =>
          match st.globalVariableContext.lookup s with
          | some v => (.ok v, st)
          | none => (.error .keyError, st)
      | _ => (.error .typeError, st)
  | _, _ => (.error .typeError, st)

/-- Models the closure created by `Interpreter._defun`: each call-time
argument is evaluated only if it is a list, the host `zip` truncates the
parameter/argument lists to the shorter one (after raising `TypeError`
if the stored parameter value is not iterable), and the pairs are bound
in a fresh scope around the body, via the same `_let` core as the `let`
form (popped only on success). -/
def callUserFunctionF (exec : Evaluator) (st : InterpState) (uf : UserFun) (argValues : List Value) :
    Except Err Value × InterpState :=
  match evaluateIfListEachF exec st argValues with
  | (.error e, st') => (.error e, st')
  | (.ok vals, st') =>
      match uf.argNames with
      | .list ps =>
          let st1 := pushScope st'
          match bindPairs st1 (ps.zip vals) with
          | (.error e, st2) => (.error e, st2)
          | (.ok _, st2) =>
              match prognLoopF exec st2 [uf.instructions] with
              | (.error e, st3) => (.error e, st3)
              | (.ok r, st3) => (.ok r, popScope st3)
      | _ => (.error .typeError, st')

/-- The dispatch body of `Interpreter.execute`, in source order: bare
atoms other than `Nil`/`T`/`List` raise `UndefinedSymbol`; an instruction
`== Nil()` returns `Nil`; a `List`'s head is compared (`==`) against
`Nil()` and `T()`; arguments are pre-evaluated exactly when the head is a
key of `regular_functions`; then the (possibly `defun`-overridden)
`functions` entry runs.  A non-`Symbol` head is unhashable, so the
membership test raises a host `TypeError`; a bare `T()` instruction
reaches the final `raise` with `function_name` unassigned
(`UnboundLocalError`); an empty `List` raises `IndexError` at
`instruction[0]`. -/
def executeBody (exec : Evaluator) (st : InterpState) (instruction : Value) :
    Except Err Value × InterpState :=
  match instruction with
  | .symbol _ | .integer _ | .float _ | .string _ => (.error .undefinedSymbol, st)
  | _ =>
    if pyEq instruction .nil then (.ok .nil, st)
    else
      match instruction with
      | .list [] => (.error .indexError, st)
      | .list (functionName :: args) =>
          if pyEq functionName .nil then (.ok .nil, st)
          else if pyEq functionName .t then (.ok .t, st)
          else
            match functionName with
            | .symbol name =>
                match (if name ∈ regularNames then evaluateArgsF exec st args
                       else (.ok args, st)) with
                | (.error e, st') => (.error e, st')
                | (.ok args', st') =>
                    match st'.userFunctions.lookup name with
                    | some uf => callUserFunctionF exec st' uf args'
                    | none =>
                        if name ∈ specialNames then applySpecialF exec st' name args'
                        else if name ∈ regularNames then (applyRegular name args', st')
                        else (.error .undefinedFunction, st')
            | _ => (.error .typeError, st)
      | _ => (.error .unboundLocal, st)

/-- Models `Interpreter.execute`, with fuel bounding the depth of nested
`execute` re-entries (each level hands `execute fuel` to the helper
methods as their `self.execute`). -/
def execute : Nat → InterpState → Value → Except Err Value × InterpState
  | 0, st, _ => (.error .outOfFuel, st)
  | fuel + 1, st, instruction => executeBody (execute fuel) st instruction

/-- The lexer's output shape: leaf tokens are words (including quoted
literals, kept verbatim with their quotes), and a matched `(...)` group
is a nested token list. -/
inductive Token where
  | word (s : String)
  | list (ts : List Token)
deriving Repr

/-- Models `Lexer.tokenize_word`: collect characters up to a delimiter
(space or parenthesis), leaving the delimiter in the input. -/
def tokenizeWord : Nat → List Char → List Char × List Char
  | 0, cs => ([], cs)
  | _ + 1, [] => ([], [])
  | fuel + 1, c :: rest =>
      if c = ' ' ∨ c = '(' ∨ c = ')' then ([], c :: rest)
      else
        let (w, r) := tokenizeWord fuel rest
        (c :: w, r)

/-- The scan inside `Lexer.tokenize_literal` after the opening quote:
collect up to and including the closing quote, or to the end of input if
it never comes. -/
def literalScan : List Char → List Char × List Char
  | [] => ([], [])
  | c :: rest =>
      if c = '"' then (['"'], rest)
      else
        let (w, r) := literalScan rest
        (c :: w, r)

/-- Models `Lexer.tokenize_literal`, called with the opening quote at the
head of the input. -/
def tokenizeLiteral (cs : List Char) : List Char × List Char :=
  match cs with
  | '"' :: rest =>
      let (w, r) := literalScan rest
      ('"' :: w, r)
  | _ => (cs, [])

/-- Models `Lexer.tokenize_words`: split into words at spaces, capture
quoted spans verbatim, and stop (without consuming) at a parenthesis. -/
def tokenizeWords : Nat → List Char → List String × List Char
  | 0, cs => ([], cs)
  | _ + 1, [] => ([], [])
  | fuel + 1, c :: rest =>
      if c = '(' ∨ c = ')' then ([], c :: rest)
      else if c = ' ' then tokenizeWords fuel rest
      else if c = '"' then
        let (tok, r) := tokenizeLiteral (c :: rest)
        let (ws, r') := tokenizeWords fuel r
        ((⟨tok⟩ : String) :: ws, r')
      else
        let (w, r) := tokenizeWord (rest.length + 1) (c :: rest)
        let (ws, r') := tokenizeWords fuel r
        ((⟨w⟩ : String) :: ws, r')

/-- Models `Lexer.tokenize_list`, entered just after its opening `(` has
been consumed: one recursion level per nested group, words in between,
ended by the matching `)`; end of input first is `InvalidInputError`.
Each loop iteration consumes at least one character, so fuel of one plus
the input length suffices. -/
def tokenizeList : Nat → List Char → Except Err (List Token × List Char)
  | 0, _ => .error .outOfFuel
  | _ + 1, [] => .error .invalidInput
  | _ + 1, ')' :: rest => .ok ([], rest)
  | fuel + 1, '(' :: rest => do
      let (inner, r) ← tokenizeList fuel rest
      let (toks, r') ← tokenizeList fuel r
      .ok (.list inner :: toks, r')
  | fuel + 1, cs => do
      let (ws, r) := tokenizeWords (cs.length + 1) cs
      let (toks, r') ← tokenizeList fuel r
      .ok (ws.map .word ++ toks, r')

/-- Models `Lexer.tokenize`: newlines become spaces; an input starting
with `(` is lexed as one parenthesized group (anything after its closing
parenthesis is discarded, as in the source), anything else as a flat word
sequence. -/
def tokenize (s : String) : Except Err (List Token) :=
  match s.data with
  | [] => .ok []
  | cs0 =>
      let cs := cs0.map fun c => if c = '\n' then ' ' else c
      match cs with
      | '(' :: rest => (tokenizeList (cs.length + 1) rest).map (·.1)
      | _ => .ok ((tokenizeWords (cs.length + 1) cs).1.map .word)

/-- The anchored integer token grammar of `Parser`, `^(-?\d+)$`. -/
def matchIntegerTok (s : String) : Bool :=
  (match s.data with
   | '-' :: rest => !rest.isEmpty && rest.all Char.isDigit
   | _ => false)
  || (!s.data.isEmpty && s.data.all Char.isDigit)

/-- The tail `\d*.\d+` of the float token grammar as written in the
source — the dot is *unescaped*, so the middle position matches any
single character: some split into a digit prefix, one arbitrary
character, and a non-empty digit suffix. -/
def matchFloatTail (cs : List Char) : Bool :=
  (List.range cs.length).any fun k =>
    (cs.take k).all Char.isDigit &&
    !(cs.drop (k + 1)).isEmpty &&
    (cs.drop (k + 1)).all Char.isDigit

/-- The anchored float token grammar of `Parser`, `^(-?\d*.\d+)$` with
its unescaped dot; the optional leading minus may or may not be
consumed. -/
def matchFloatTok (s : String) : Bool :=
  (match s.data with
   | '-' :: rest => matchFloatTail rest
   | _ => false)
  || matchFloatTail s.data

/-- The anchored string token grammar `^"(.*)"$` (`.` does not match a
newline). -/
def matchStringTok (s : String) : Bool :=
  match s.data with
  | '"' :: rest => rest.getLast? == some '"' && rest.dropLast.all (fun c => c ≠ '\n')
  | _ => false

/-- The quotes stripped by the string grammar's capture group. -/
def stripQuotes (s : String) : String :=
  ⟨(s.data.drop 1).dropLast⟩

/-- Models `Parser._parse_token`: try the literal grammars in the fixed
insertion order `nil`, `t`, `integer`, `float`, `string`; the first match
wins and its converter runs (the float converter can raise `ValueError`
on tokens matched only thanks to the unescaped dot); a token matching no
grammar becomes a `Symbol`. -/
def parseToken (token : String) : Except Err Value :=
  if token = "nil" then .ok .nil
  else if token = "t" then .ok .t
  else if matchIntegerTok token then .ok (.integer (pyIntOfString token))
  else if matchFloatTok token then
    match pyFloatOfString token with
    | some q => .ok (.float q)
    | none => .error .valueError
  else if matchStringTok token then .ok (.string (stripQuotes token))
  else .ok (.symbol token)

mutual

/-- One token of `Parser.parse`'s loop: a leaf goes through
`_parse_token`, a sublist through the recursive `parse` (an empty sublist
parses to `Nil`, like an empty top-level input). -/
def parseOne : Token → Except Err Value
  | .word w => parseToken w
  | .list [] => .ok .nil
  | .list (t :: ts) => (parseItems (t :: ts)).map .list
termination_by structural t => t

/-- The element loop of `Parser.parse`. -/
def parseItems : List Token → Except Err (List Value)
  | [] => .ok []
  | t :: rest => do
      let v ← parseOne t
      let vs ← parseItems rest
      .ok (v :: vs)
termination_by structural ts => ts

end

/-- Models `Parser.parse`: `Nil` for an empty token sequence, otherwise a
top-level `List` of the parsed elements. -/
def parse (tokens : List Token) : Except Err Value :=
  match tokens with
  | [] => .ok .nil
  | ts => (parseItems ts).map .list

/-- Models `Lispy.eval`: lex, parse, execute (with explicit fuel for the
evaluator). -/
def lispyEval (fuel : Nat) (st : InterpState) (s : String) : Except Err Value × InterpState :=
  match tokenize s with
  | .error e => (.error e, st)
  | .ok toks =>
      match parse toks with
      | .error e => (.error e, st)
      | .ok instruction => execute fuel st instruction

/-- A session of consecutive `Lispy.eval` calls against one interpreter,
returning the last result (used for sessions whose earlier inputs
succeed). -/
def runProgs (fuel : Nat) : InterpState → List String → Except Err Value × InterpState
  | st, [] => (.ok .nil, st)
  | st, [p] => lispyEval fuel st p
  | st, p :: rest =>
      match lispyEval fuel st p with
      | (.error e, st') => (.error e, st')
      | (.ok _, st') => runProgs fuel st' rest

/-!  Object-identity model for the in-place mutation in `Interpreter._sub`.

The value-level interpreter above stores values by value, which is
faithful except for the one place the source mutates an existing object:
the single-argument branch of `_sub` executes `x.value *= -1` on the very
object it received.  Arguments reach `_sub` by reference — a bound
`Symbol` is resolved by `_evaluate_args` to the object stored in the
variable table, not to a copy — so the mutation is visible through every
binding holding that object.  The tiny model below makes object identity
explicit: a heap of objects addressed by id, and a global table mapping
names to ids, mirroring `global_variable_context`. -/
structure HState where
  heap : List Value
  globals : List (String × Nat)
deriving Repr

/-- Models `Interpreter._set_global_variable` storing the argument
object itself: the table maps the name to the object's id. -/
def hSetGlobal (st : HState) (name : String) (r : Nat) : HState :=
  { st with globals := dictSet st.globals name r }

/-- Models the variable resolution in `Interpreter._evaluate_args` /
`_get_global_variable`: the lookup hands back the stored object (its id),
never a copy. -/
def hGetVariable (st : HState) (name : String) : Option Nat :=
  st.globals.lookup name

/-- The current payload of the object with the given id. -/
def hDeref (st : HState) (r : Nat) : Value :=
  st.heap.getD r .nil

/-- Negation of a numeric payload, the effect of `value *= -1`. -/
def negateValue : Value → Value
  | .integer n => .integer (-n)
  | .float q => .float (-q)
  | v => v

/-- Models the single-argument branch of `Interpreter._sub`
(`x.value *= -1; result = x`): the referenced object's payload is negated
in place and the very same reference is returned as the result. -/
def hSubSingle (st : HState) (r : Nat) : HState × Nat :=
  ({ st with heap := st.heap.set r (negateValue (hDeref st r)) }, r)

/-- The full display round trip of one input string:
`render(parse(lex(s)))`. -/
def roundTrip (s : String) : Except Err String :=
  match tokenize s with
  | .error e => .error e
  | .ok toks =>
      match parse toks with
      | .error e => .error e
      | .ok v => .ok (render v)

/-- An interpreter state holding a global variable `a` (with an arbitrary
value) and a user function `(defun foo (x) (list x))`, used to compare
how `defun`-registered functions and builtins receive a bound `Symbol`
argument. -/
def c3State (w : Value) : InterpState :=
  { globalVariableContext := [("a", w)],
    localVariableContexts := [],
    userFunctions := [("foo", ⟨.list [.symbol "x"], .list [.symbol "list", .symbol "x"]⟩)] }

/-- The rational value of a numeric `Value` (`0` for non-numeric ones,
which the arithmetic theorems exclude by hypothesis). -/
def numValQ (v : Value) : ℚ :=
  match toPyNum v with
  | some n => n.toQ
  | none => 0

/-!  Theorems settling the claims. -/

/-- C1, counterexample: the claim says a `let` binding whose value is a
`List` binds the name to the *result of evaluating* that value, so
`(let ((x (+ 1 2))) (eq x 3))` would bind `x` to `Integer 3` and return
`T`.  The interpreter binds the raw list `(+ 1 2)` instead, so the
comparison yields `Nil`. -/
theorem c1_counterexample :
    (lispyEval 100 initialState "(let ((x (+ 1 2))) (eq x 3))").1 = .ok .nil := rfl

/-- C1, amended: `let` binds every name to its binding value *unevaluated*
(a `List` value is bound as the list itself, observable through `(list x)`
returning the raw binding); the body is evaluated as `progn` in that
scope, an empty body gives `Nil`, and the scope is popped on success.  The
spec's example `(let ((x 1) (y 2)) (+ x y))`, whose bound values are
atoms, still returns `Integer 3`. -/
theorem c1_let_binds_raw_values :
    (∀ (v : Value) (n : Nat),
      execute (n + 10) initialState
        (.list [.symbol "let", .list [.list [.symbol "x", v]],
                .list [.symbol "list", .symbol "x"]])
        = (.ok (.list [v]), initialState))
    ∧ (∀ (v : Value) (n : Nat),
      execute (n + 10) initialState
        (.list [.symbol "let", .list [.list [.symbol "x", v]]])
        = (.ok .nil, initialState))
    ∧ (lispyEval 100 initialState "(let ((x 1) (y 2)) (+ x y))").1 = .ok (.integer 3) :=
  ⟨fun _ _ => rfl, fun _ _ => rfl, rfl⟩

/-- C2, counterexample: the claim says *every* non-empty list whose head
is not a `Symbol` naming a special form or registered function raises
`UndefinedFunction`, explicitly including a `Nil` head; but
`execute(List(Nil(), Integer(7)))` returns `Nil` (the head compares equal
to `Nil()`), raising nothing. -/
theorem c2_counterexample :
    execute 1 initialState (.list [.nil, .integer 7]) = (.ok .nil, initialState) := rfl

/-- C4, code bug: `_let` has no `try`/`finally`, so when the body errors
(here `(y)` raises `UndefinedFunctionError`), the pushed local scope —
still holding `x = 1` — is *not* popped: the stack after the failed
`execute` is `[{x: 1}]`, not the empty stack it started with. -/
theorem c4_scope_leak_on_error :
    lispyEval 100 initialState "(let ((x 1)) (y))"
      = (.error .undefinedFunction,
         { globalVariableContext := [],
           localVariableContexts := [[("x", .integer 1)]],
           userFunctions := [] }) := rfl

/-- C7, code bug: `_get` accesses the global dict directly
(`self.global_variable_context[name]`), so `(get foo)` on a fresh
interpreter raises the host `KeyError` — not `UndefinedVariableError`,
which is raised nowhere on this path (and `KeyError` is not a
`LispyError`, so the REPL's handler would not catch it). -/
theorem c7_get_absent_keyerror :
    lispyEval 10 initialState "(get foo)" = (.error .keyError, initialState) := rfl

/-- C8, code bug: the single-argument branch of `_sub` runs
`x.value *= -1` on the operand object itself.  After `(set a 5)` the
global table holds the `Integer(5)` object; `(- a)` resolves `a` to that
very object, negates it in place and returns it, so the binding `a` now
reads `-5`: the operand and the global binding holding it are *not* left
unchanged. -/
theorem c8_sub_mutates_operand :
    hSetGlobal ⟨[.integer 5], []⟩ "a" 0 = ⟨[.integer 5], [("a", 0)]⟩
    ∧ hGetVariable ⟨[.integer 5], [("a", 0)]⟩ "a" = some 0
    ∧ hSubSingle ⟨[.integer 5], [("a", 0)]⟩ 0 = (⟨[.integer (-5)], [("a", 0)]⟩, 0)
    ∧ hDeref ⟨[.integer (-5)], [("a", 0)]⟩ 0 = .integer (-5) :=
  ⟨rfl, rfl, rfl, rfl⟩

/-- C2, amended: `UndefinedFunction` is raised exactly for a `Symbol`
head that names no special form, no builtin and no `defun`-registered
function.  A non-`Symbol` head never raises `UndefinedFunction`: a head
that compares `==` to `Nil()` returns `Nil`; a head that compares `==` to
`T()` — which includes `Integer 1` and `Float 1.0`, since `True == 1` —
returns `T`; every other non-`Symbol` head is unhashable, so the
registry-membership test raises a host `TypeError`. -/
theorem c2_call_head_dispatch :
    (∀ (fuel : Nat) (st : InterpState) (name : String) (args : List Value),
      name ∉ regularNames → name ∉ specialNames →
      st.userFunctions.lookup name = none →
      execute (fuel + 1) st (.list (.symbol name :: args))
        = (.error .undefinedFunction, st))
    ∧ (∀ (fuel : Nat) (st : InterpState) (args : List Value),
      execute (fuel + 1) st (.list (.nil :: args)) = (.ok .nil, st))
    ∧ (∀ (fuel : Nat) (st : InterpState) (args : List Value),
      execute (fuel + 1) st (.list (.t :: args)) = (.ok .t, st))
    ∧ (∀ (fuel : Nat) (st : InterpState) (args : List Value),
      execute (fuel + 1) st (.list (.integer 1 :: args)) = (.ok .t, st))
    ∧ (∀ (fuel : Nat) (st : InterpState) (args : List Value),
      execute (fuel + 1) st (.list (.float 1 :: args)) = (.ok .t, st))
    ∧ (∀ (fuel : Nat) (st : InterpState) (args : List Value) (n : Int),
      n ≠ 1 →
      execute (fuel + 1) st (.list (.integer n :: args)) = (.error .typeError, st))
    ∧ (∀ (fuel : Nat) (st : InterpState) (args : List Value) (q : ℚ),
      q ≠ 1 →
      execute (fuel + 1) st (.list (.float q :: args)) = (.error .typeError, st))
    ∧ (∀ (fuel : Nat) (st : InterpState) (args : List Value) (s : String),
      execute (fuel + 1) st (.list (.string s :: args)) = (.error .typeError, st))
    ∧ (∀ (fuel : Nat) (st : InterpState) (args : List Value) (l : List Value),
      execute (fuel + 1) st (.list (.list l :: args)) = (.error .typeError, st)) := by
  refine ⟨?_, ?_, ?_, ?_, ?_, ?_, ?_, ?_, ?_⟩
  · intro fuel st name args h1 h2 h3
    simp [execute, executeBody, pyEq, h1, h2, h3]
  · intro fuel st args
    exact rfl
  · intro fuel st args
    exact rfl
  · intro fuel st args
    exact rfl
  · intro fuel st args
    simp [execute, executeBody, pyEq]
  · intro fuel st args n h
    simp [execute, executeBody, pyEq, h]
  · intro fuel st args q h
    simp [execute, executeBody, pyEq, h]
  · intro fuel st args s
    simp [execute, executeBody, pyEq]
  · intro fuel st args l
    simp [execute, executeBody, pyEq, pyEqList]

/-- C2, witness: the amended dispatch rules applied at concrete inputs:
the unregistered symbol `abc` raises `UndefinedFunction`, and the
`Integer 0` head raises the host `TypeError`. -/
theorem c2_call_head_dispatch_witness :
    execute 1 initialState (.list [.symbol "abc", .integer 1])
      = (.error .undefinedFunction, initialState)
    ∧ execute 1 initialState (.list [.integer 0])
      = (.error .typeError, initialState) :=
  ⟨c2_call_head_dispatch.1 0 initialState "abc" [.integer 1]
      (by decide) (by decide) rfl,
   c2_call_head_dispatch.2.2.2.2.2.1 0 initialState [] 0 (by decide)⟩

/-- C5, code bug: the float pattern is written `^(-?\d*.\d+)$` with an
unescaped dot, so it matches tokens the spec's grammar
`^-?\d*\.\d+$` rejects: `+1` is classified as a float (parsing as
`Float 1.0`, not the `Symbol` the spec requires), `a1` matches the
pattern but crashes the host `float()` conversion with `ValueError`
(the spec says non-matching tokens always become `Symbol`s, never an
error), and the pattern even matches the bare integer `123`, which only
the earlier integer rule rescues — the spec's rationale says the float
pattern itself must not match a bare integer. -/
theorem c5_float_regex_dot :
    parseToken "+1" = .ok (.float 1)
    ∧ parseToken "a1" = .error .valueError
    ∧ matchFloatTok "123" = true
    ∧ parseToken "123" = .ok (.integer 123) := by
  refine ⟨?_, rfl, rfl, rfl⟩
  have h : parseToken "+1" = .ok (.float ((1 : ℚ) * ((1 : Nat) : ℚ))) := rfl
  rw [h]
  norm_num

/-- C3, counterexample: the claim says a `defun`-registered function
receives its arguments fully evaluated, with a bound `Symbol` resolved to
the variable's value; then after `(set a 5)` and
`(defun foo (x) (eq x 5))`, the call `(foo a)` would bind `x = Integer 5`
and return `T`.  In fact `defun` calls only evaluate list arguments, so
`x` is bound to the literal `Symbol a` and the comparison yields `Nil`. -/
theorem c3_counterexample :
    (runProgs 100 initialState
      ["(set a 5)", "(defun foo (x) (eq x 5))", "(foo a)"]).1 = .ok .nil := rfl

/-- C3, amended: argument passing differs between `defun`-registered
functions and builtins.  A `defun` function call evaluates an argument
only if it is a `List`: a `Symbol` argument bound as a global variable is
passed as the literal `Symbol` (the result below is independent of the
variable's value `w`), while a `List` argument is executed.  A builtin
(here `list`) does resolve a bound `Symbol` to the variable's value. -/
theorem c3_defun_args_evaluate_if_list :
    (∀ (w : Value) (n : Nat),
      execute (n + 12) (c3State w) (.list [.symbol "foo", .symbol "a"])
        = (.ok (.list [.symbol "a"]), c3State w))
    ∧ (∀ (w : Value) (n : Nat),
      execute (n + 12) (c3State w) (.list [.symbol "list", .symbol "a"])
        = (.ok (.list [w]), c3State w))
    ∧ (∀ (n : Nat),
      execute (n + 12) (c3State (.integer 5)) (.list [.symbol "foo", .list [.symbol "list"]])
        = (.ok (.list [.nil]), c3State (.integer 5))) :=
  ⟨fun _ _ => rfl, fun _ _ => rfl, fun _ => rfl⟩

/-- The payload sum of all-`Integer` arguments stays a host int. -/
theorem pySumFrom_allInt (args : List Value) : ∀ (i : Int),
    (∀ a ∈ args, isIntV a = true) → ∃ j : Int, pySumFrom (.int i) args = some (.int j) := by
  induction args with
  | nil => exact fun i _ => ⟨i, rfl⟩
  | cons a rest ih =>
    intro i h
    have ha := h a (by simp)
    cases a <;> simp [isIntV] at ha
    rename_i k
    simpa [pySumFrom, toPyNum, pyAdd] using ih (i + k) (fun b hb => h b (by simp [hb]))

/-- Once the accumulator is a host float, summing numeric arguments keeps
it a float. -/
theorem pySumFrom_floatAcc (args : List Value) : ∀ (q : ℚ),
    (∀ a ∈ args, isNumV a = true) → ∃ r : ℚ, pySumFrom (.float q) args = some (.float r) := by
  induction args with
  | nil => exact fun q _ => ⟨q, rfl⟩
  | cons a rest ih =>
    intro q h
    have ha := h a (by simp)
    cases a <;> simp [isNumV] at ha
    · rename_i k
      simpa [pySumFrom, toPyNum, pyAdd] using ih _ (fun b hb => h b (by simp [hb]))
    · rename_i qa
      simpa [pySumFrom, toPyNum, pyAdd] using ih _ (fun b hb => h b (by simp [hb]))

/-- The payload sum of numeric arguments with at least one `Float` is a
host float. -/
theorem pySumFrom_mixed (args : List Value) : ∀ (i : Int),
    (∀ a ∈ args, isNumV a = true) → (∃ a ∈ args, isFloatV a = true) →
    ∃ r : ℚ, pySumFrom (.int i) args = some (.float r) := by
  induction args with
  | nil =>
    rintro i _ ⟨a, ha, _⟩
    exact absurd ha (by simp)
  | cons a rest ih =>
    rintro i h ⟨b, hb, hbf⟩
    have ha := h a (by simp)
    cases a <;> simp [isNumV] at ha
    · rename_i k
      rcases List.mem_cons.mp hb with hb | hb
      · subst hb
        simp [isFloatV] at hbf
      · simpa [pySumFrom, toPyNum, pyAdd] using
          ih (i + k) (fun c hc => h c (by simp [hc])) ⟨b, hb, hbf⟩
    · rename_i qa
      simpa [pySumFrom, toPyNum, pyAdd] using
        pySumFrom_floatAcc rest _ (fun c hc => h c (by simp [hc]))

/-- The payload product of all-`Integer` arguments stays a host int. -/
theorem pyProdFrom_allInt (args : List Value) : ∀ (i : Int),
    (∀ a ∈ args, isIntV a = true) → ∃ j : Int, pyProdFrom (.int i) args = some (.int j) := by
  induction args with
  | nil => exact fun i _ => ⟨i, rfl⟩
  | cons a rest ih =>
    intro i h
    have ha := h a (by simp)
    cases a <;> simp [isIntV] at ha
    rename_i k
    simpa [pyProdFrom, toPyNum, pyMul] using ih (i * k) (fun b hb => h b (by simp [hb]))

/-- Once the accumulator is a host float, multiplying numeric arguments
keeps it a float. -/
theorem pyProdFrom_floatAcc (args : List Value) : ∀ (q : ℚ),
    (∀ a ∈ args, isNumV a = true) → ∃ r : ℚ, pyProdFrom (.float q) args = some (.float r) := by
  induction args with
  | nil => exact fun q _ => ⟨q, rfl⟩
  | cons a rest ih =>
    intro q h
    have ha := h a (by simp)
    cases a <;> simp [isNumV] at ha
    · rename_i k
      simpa [pyProdFrom, toPyNum, pyMul] using ih _ (fun b hb => h b (by simp [hb]))
    · rename_i qa
      simpa [pyProdFrom, toPyNum, pyMul] using ih _ (fun b hb => h b (by simp [hb]))

/-- The payload product of numeric arguments with at least one `Float` is
a host float. -/
theorem pyProdFrom_mixed (args : List Value) : ∀ (i : Int),
    (∀ a ∈ args, isNumV a = true) → (∃ a ∈ args, isFloatV a = true) →
    ∃ r : ℚ, pyProdFrom (.int i) args = some (.float r) := by
  induction args with
  | nil =>
    rintro i _ ⟨a, ha, _⟩
    exact absurd ha (by simp)
  | cons a rest ih =>
    rintro i h ⟨b, hb, hbf⟩
    have ha := h a (by simp)
    cases a <;> simp [isNumV] at ha
    · rename_i k
      rcases List.mem_cons.mp hb with hb | hb
      · subst hb
        simp [isFloatV] at hbf
      · simpa [pyProdFrom, toPyNum, pyMul] using
          ih (i * k) (fun c hc => h c (by simp [hc])) ⟨b, hb, hbf⟩
    · rename_i qa
      simpa [pyProdFrom, toPyNum, pyMul] using
        pyProdFrom_floatAcc rest _ (fun c hc => h c (by simp [hc]))

/-- `_cast_arithmetic_values` picks `Integer` when every argument is one. -/
theorem allIntegerClass_of (args : List Value) (h : ∀ a ∈ args, isIntV a = true) :
    allIntegerClass args = true := by
  simp [allIntegerClass, List.all_eq_true]
  exact h

/-- `_cast_arithmetic_values` picks `Float` when some argument is one. -/
theorem allIntegerClass_false_of (args : List Value) (b : Value) (hb : b ∈ args)
    (hbf : isFloatV b = true) : allIntegerClass args = false := by
  simp [allIntegerClass, List.all_eq_true]
  refine ⟨b, hb, ?_⟩
  cases b <;> simp_all [isFloatV, isIntV]

/-- C6, counterexample: the claim says `pow` over `Integer` operands
yields an `Integer`; but `(pow 2 -1)` computes the host float `0.5` and
`Integer(0.5)` fails its construction type check, raising `TypeError`
instead of returning any value. -/
theorem c6_counterexample :
    (lispyEval 10 initialState "(pow 2 -1)").1 = .error .typeError := rfl

/-- C6, amended: for `+`/`sum`, `-`/`sub` and `*`/`mul` over numeric
operands the coercion rule holds: all-`Integer` operands give an
`Integer`, a `Float` among them gives a `Float` (single-argument `sub`
negates within the operand's type).  `pow` follows the rule only when the
host power stays in the output class: with all-`Integer` operands and a
negative exponent the host produces a float and `Integer` construction
raises `TypeError` (base `0` would raise `ZeroDivisionError`); with a
`Float` base and an `Integer` exponent the result is a `Float` (taking
`0` bases only to non-negative exponents; non-integral exponents leave
the rational model).  `/`/`div` yields a `Float` for every numeric pair
except a zero divisor, which raises `ZeroDivisionError`. -/
theorem c6_arithmetic_coercion :
    (∀ args : List Value, (∀ a ∈ args, isIntV a = true) →
      ∃ i : Int, sumOp args = .ok (.integer i))
    ∧ (∀ args : List Value, (∀ a ∈ args, isNumV a = true) →
      (∃ a ∈ args, isFloatV a = true) →
      ∃ q : ℚ, sumOp args = .ok (.float q))
    ∧ (∀ args : List Value, (∀ a ∈ args, isIntV a = true) →
      ∃ i : Int, mulOp args = .ok (.integer i))
    ∧ (∀ args : List Value, (∀ a ∈ args, isNumV a = true) →
      (∃ a ∈ args, isFloatV a = true) →
      ∃ q : ℚ, mulOp args = .ok (.float q))
    ∧ (∀ a b : Int, subOp (.integer a) (some (.integer b)) = .ok (.integer (a - b)))
    ∧ (∀ x y : Value, isNumV x = true → isNumV y = true →
      (isFloatV x || isFloatV y) = true →
      ∃ q : ℚ, subOp x (some y) = .ok (.float q))
    ∧ (∀ a : Int, subOp (.integer a) none = .ok (.integer (-a)))
    ∧ (∀ q : ℚ, subOp (.float q) none = .ok (.float (-q)))
    ∧ (∀ a b : Int, 0 ≤ b →
      powOp (.integer a) (.integer b) = .ok (.integer (a ^ b.toNat)))
    ∧ (∀ a b : Int, b < 0 → a ≠ 0 →
      powOp (.integer a) (.integer b) = .error .typeError)
    ∧ (∀ (qx : ℚ) (b : Int), qx ≠ 0 ∨ 0 ≤ b →
      ∃ r : ℚ, powOp (.float qx) (.integer b) = .ok (.float r))
    ∧ (∀ x y : Value, isNumV x = true → isNumV y = true → numValQ y ≠ 0 →
      ∃ q : ℚ, divOp x y = .ok (.float q))
    ∧ (∀ x : Value, isNumV x = true →
      divOp x (.integer 0) = .error .zeroDivision) := by
  refine ⟨?_, ?_, ?_, ?_, fun a b => rfl, ?_, fun a => rfl, fun q => rfl,
    ?_, ?_, ?_, ?_, ?_⟩
  · intro args h
    obtain ⟨j, hj⟩ := pySumFrom_allInt args 0 h
    exact ⟨j, by simp [sumOp, pySum, hj, allIntegerClass_of args h, castResult]⟩
  · intro args h hf
    obtain ⟨r, hr⟩ := pySumFrom_mixed args 0 h hf
    obtain ⟨b, hb, hbf⟩ := hf
    exact ⟨r, by simp [sumOp, pySum, hr, allIntegerClass_false_of args b hb hbf, castResult]⟩
  · intro args h
    obtain ⟨j, hj⟩ := pyProdFrom_allInt args 1 h
    exact ⟨j, by simp [mulOp, pyProd, hj, allIntegerClass_of args h, castResult]⟩
  · intro args h hf
    obtain ⟨r, hr⟩ := pyProdFrom_mixed args 1 h hf
    obtain ⟨b, hb, hbf⟩ := hf
    exact ⟨r, by simp [mulOp, pyProd, hr, allIntegerClass_false_of args b hb hbf, castResult]⟩
  · intro x y hx hy hf
    cases x <;> simp [isNumV] at hx <;>
      cases y <;> simp_all [isNumV, isFloatV, subOp, pyTruthy, toPyNum, pySub,
        allIntegerClass, isIntV, castResult]
  · intro a b h
    simp [powOp, toPyNum, pyPow, h, allIntegerClass, isIntV, castResult]
  · intro a b hb ha
    simp [powOp, toPyNum, pyPow, not_le.2 hb, ha, allIntegerClass, isIntV, castResult]
  · intro qx b h
    refine ⟨qx ^ ((b : ℚ)).num, ?_⟩
    have hden : ((b : ℚ)).den = 1 := Rat.den_intCast b
    rcases h with h | h
    · simp [powOp, toPyNum, pyPow, PyNum.toQ, hden, h, allIntegerClass, isIntV, castResult]
    · have hnn : ¬((b : ℚ) < 0) := by exact_mod_cast not_lt.2 h
      simp [powOp, toPyNum, pyPow, PyNum.toQ, hden, hnn, allIntegerClass, isIntV, castResult]
  · intro x y hx hy hz
    cases x <;> simp [isNumV] at hx <;>
      cases y <;> simp_all [isNumV, divOp, toPyNum, numValQ, PyNum.toQ]
  · intro x hx
    cases x <;> simp_all [isNumV, divOp, toPyNum, PyNum.toQ]

/-- C6, witness: the amended coercion rules applied at concrete inputs,
including the failing `(pow 2 -1)` and the zero-divisor division. -/
theorem c6_arithmetic_coercion_witness :
    (∃ i : Int, sumOp [.integer 1, .integer 2] = .ok (.integer i))
    ∧ (∃ q : ℚ, sumOp [.integer 1, .float (1/2)] = .ok (.float q))
    ∧ (∃ i : Int, mulOp [.integer 2, .integer 3] = .ok (.integer i))
    ∧ (∃ q : ℚ, mulOp [.integer 2, .float (1/2)] = .ok (.float q))
    ∧ subOp (.integer 5) (some (.integer 2)) = .ok (.integer 3)
    ∧ (∃ q : ℚ, subOp (.float 1) (some (.integer 2)) = .ok (.float q))
    ∧ subOp (.integer 5) none = .ok (.integer (-5))
    ∧ powOp (.integer 2) (.integer 3) = .ok (.integer 8)
    ∧ powOp (.integer 2) (.integer (-1)) = .error .typeError
    ∧ (∃ r : ℚ, powOp (.float 2) (.integer 3) = .ok (.float r))
    ∧ (∃ q : ℚ, divOp (.integer 6) (.integer 3) = .ok (.float q))
    ∧ divOp (.integer 1) (.integer 0) = .error .zeroDivision :=
  ⟨c6_arithmetic_coercion.1 _ (by decide),
   c6_arithmetic_coercion.2.1 _ (by decide) (by decide),
   c6_arithmetic_coercion.2.2.1 _ (by decide),
   c6_arithmetic_coercion.2.2.2.1 _ (by decide) (by decide),
   c6_arithmetic_coercion.2.2.2.2.1 5 2,
   c6_arithmetic_coercion.2.2.2.2.2.1 _ _ (by decide) (by decide) (by decide),
   c6_arithmetic_coercion.2.2.2.2.2.2.1 5,
   c6_arithmetic_coercion.2.2.2.2.2.2.2.2.1 2 3 (by decide),
   c6_arithmetic_coercion.2.2.2.2.2.2.2.2.2.1 2 (-1) (by decide) (by decide),
   c6_arithmetic_coercion.2.2.2.2.2.2.2.2.2.2.1 2 3 (Or.inr (by decide)),
   c6_arithmetic_coercion.2.2.2.2.2.2.2.2.2.2.2.1 _ _ (by decide) (by decide)
     (by norm_num [numValQ, toPyNum, PyNum.toQ]),
   c6_arithmetic_coercion.2.2.2.2.2.2.2.2.2.2.2.2 _ (by decide)⟩

/-- C10: the builtin `eq`/`=` compares via `Type.__eq__`, which checks
host values and ignores the variant tag except for `Symbol`: `(= 1 t)` is
`T` because `Integer(1) == T()` (booleans are ints), `Integer(1)` equals
`Float(1.0)`, `(= 0 nil)` is `Nil` (`None` equals nothing but `None`),
and a `Symbol` compares equal exactly to the identical `Symbol`. -/
theorem c10_equality_semantics :
    (lispyEval 10 initialState "(= 1 t)").1 = .ok .t
    ∧ (lispyEval 10 initialState "(= 0 nil)").1 = .ok .nil
    ∧ pyEq (.integer 1) (.float 1) = true
    ∧ pyEq (.integer 1) .t = true
    ∧ (∀ s v, pyEq (.symbol s) v = true ↔ v = .symbol s)
    ∧ (∀ s v, pyEq v (.symbol s) = true ↔ v = .symbol s) := by
  refine ⟨rfl, rfl, rfl, rfl, ?_, ?_⟩
  · intro s v
    cases v <;>
      try exact iff_of_false (fun h => Bool.false_ne_true h) (fun h => Value.noConfusion h)
    next b =>
      constructor
      · intro h
        have hs : s = b := eq_of_beq h
        rw [hs]
      · intro h
        injection h with hb
        show (s == b) = true
        rw [hb]
        exact beq_self_eq_true s
  · intro s v
    cases v <;>
      try exact iff_of_false (fun h => Bool.false_ne_true h) (fun h => Value.noConfusion h)
    next b =>
      constructor
      · intro h
        have hs : b = s := eq_of_beq h
        rw [hs]
      · intro h
        injection h with hb
        show (b == s) = true
        rw [hb]
        exact beq_self_eq_true s



theorem digitChar_props (d : Nat) :
    (digitChar d).isDigit = true ∧ digitChar d ≠ '-' ∧ digitChar d ≠ ' '
    ∧ digitChar d ≠ '(' ∧ digitChar d ≠ ')' ∧ digitChar d ≠ '"'
    ∧ digitChar d ≠ '\n' ∧ digitChar d ≠ 'n' ∧ digitChar d ≠ 't' := by
  have h : d % 10 < 10 := Nat.mod_lt _ (by omega)
  unfold digitChar
  generalize d % 10 = e at h ⊢
  interval_cases e <;> exact (by decide)

theorem digitChar_toNat (d : Nat) : (digitChar d).toNat - 48 = d % 10 := by
  have h : d % 10 < 10 := Nat.mod_lt _ (by omega)
  unfold digitChar
  generalize d % 10 = e at h ⊢
  interval_cases e <;> exact (by decide)

theorem digitsVal_append_single (cs : List Char) (c : Char) :
    digitsVal (cs ++ [c]) = 10 * digitsVal cs + (c.toNat - 48) := by
  simp [digitsVal, List.foldl_append]

theorem natDigitsGo_spec : ∀ (fuel n : Nat), n ≤ fuel →
    natDigitsGo fuel n ≠ []
    ∧ (∀ c ∈ natDigitsGo fuel n, ∃ d, c = digitChar d)
    ∧ digitsVal (natDigitsGo fuel n) = n := by
  intro fuel
  induction fuel with
  | zero =>
    intro n hn
    have : n = 0 := Nat.le_zero.mp hn
    subst this
    refine ⟨by simp [natDigitsGo], ?_, ?_⟩
    · intro c hc
      simp [natDigitsGo] at hc
      exact ⟨0, hc⟩
    · simp [natDigitsGo, digitsVal, digitChar_toNat]
  | succ fuel ih =>
    intro n hn
    by_cases h10 : n < 10
    · refine ⟨by simp [natDigitsGo, h10], ?_, ?_⟩
      · intro c hc
        simp [natDigitsGo, h10] at hc
        exact ⟨n, hc⟩
      · simp [natDigitsGo, h10, digitsVal, digitChar_toNat]
    · have hdiv : n / 10 ≤ fuel := by
        have := Nat.div_lt_self (by omega : 0 < n) (by omega : 1 < 10)
        omega
      obtain ⟨hne, hmem, hval⟩ := ih (n / 10) hdiv
      refine ⟨by simp [natDigitsGo, h10], ?_, ?_⟩
      · intro c hc
        simp [natDigitsGo, h10] at hc
        rcases hc with hc | hc
        · exact hmem c hc
        · exact ⟨n % 10, hc⟩
      · rw [show natDigitsGo (fuel + 1) n
            = natDigitsGo fuel (n / 10) ++ [digitChar (n % 10)] by
              simp [natDigitsGo, h10]]
        rw [digitsVal_append_single, hval, digitChar_toNat]
        omega

theorem natDigits_spec (n : Nat) :
    natDigits n ≠ []
    ∧ (∀ c ∈ natDigits n, ∃ d, c = digitChar d)
    ∧ digitsVal (natDigits n) = n :=
  natDigitsGo_spec n n le_rfl



theorem tokenizeWord_all : ∀ (cs : List Char) (fuel : Nat), cs.length ≤ fuel →
    (∀ c ∈ cs, ¬(c = ' ' ∨ c = '(' ∨ c = ')')) → tokenizeWord fuel cs = (cs, []) := by
  intro cs
  induction cs with
  | nil =>
    intro fuel _ _
    cases fuel <;> rfl
  | cons c rest ih =>
    intro fuel hlen h
    cases fuel with
    | zero => simp at hlen
    | succ f =>
      have hc := h c (by simp)
      simp [tokenizeWord, if_neg hc,
        ih f (by simpa using hlen) (fun b hb => h b (by simp [hb]))]

theorem tokenizeWords_nil (fuel : Nat) : tokenizeWords fuel [] = ([], []) := by
  cases fuel <;> rfl

theorem tokenizeWords_single (c : Char) (rest : List Char) (fuel : Nat) (hf : 1 ≤ fuel)
    (h : ∀ b ∈ c :: rest, ¬(b = ' ' ∨ b = '(' ∨ b = ')') ∧ b ≠ '"') :
    tokenizeWords fuel (c :: rest) = ([⟨c :: rest⟩], []) := by
  cases fuel with
  | zero => omega
  | succ f =>
    obtain ⟨hc, hcq⟩ := h c (by simp)
    have h1 : ¬(c = '(' ∨ c = ')') := by tauto
    have h2 : ¬(c = ' ') := by tauto
    simp only [tokenizeWords, if_neg h1, if_neg h2, if_neg hcq]
    rw [tokenizeWord_all (c :: rest) (rest.length + 1) (by simp) (fun b hb => (h b hb).1)]
    simp [tokenizeWords_nil]

theorem mapNewline_id : ∀ (l : List Char), (∀ b ∈ l, b ≠ '\n') →
    l.map (fun x => if x = '\n' then ' ' else x) = l := by
  intro l hl
  induction l with
  | nil => rfl
  | cons a as iha =>
    simp only [List.map_cons, if_neg (hl a (by simp)),
      iha (fun b hb => hl b (by simp [hb]))]

theorem tokenize_single_word (c : Char) (rest : List Char)
    (h : ∀ b ∈ c :: rest, ¬(b = ' ' ∨ b = '(' ∨ b = ')') ∧ b ≠ '"' ∧ b ≠ '\n') :
    tokenize ⟨c :: rest⟩ = .ok [.word ⟨c :: rest⟩] := by
  have hmap := mapNewline_id (c :: rest) (fun b hb => (h b hb).2.2)
  show (match (c :: rest : List Char) with
    | [] => Except.ok []
    | cs0 =>
        let cs := cs0.map fun x => if x = '\n' then ' ' else x
        match cs with
        | '(' :: r => (tokenizeList (cs.length + 1) r).map Prod.fst
        | _ => Except.ok ((tokenizeWords (cs.length + 1) cs).1.map Token.word)) = _
  simp only [hmap]
  split
  · rename_i r heq
    obtain ⟨hc, _⟩ := h c (by simp)
    rw [List.cons.injEq] at heq
    exact absurd (Or.inr (Or.inl heq.1)) hc
  · rw [tokenizeWords_single c rest _ (by simp) (fun b hb => ⟨(h b hb).1, (h b hb).2.1⟩)]
    rfl



theorem intRepr_pos (n : Int) (h : ¬(n < 0)) : intRepr n = ⟨natDigits n.natAbs⟩ := by
  rw [intRepr, if_neg h]

theorem intRepr_neg (n : Int) (h : n < 0) : intRepr n = ⟨'-' :: natDigits n.natAbs⟩ := by
  rw [intRepr, if_pos h]

theorem intRepr_chars (n : Int) : ∀ b ∈ (intRepr n).data,
    ¬(b = ' ' ∨ b = '(' ∨ b = ')') ∧ b ≠ '"' ∧ b ≠ '\n' := by
  intro b hb
  have hdig : ∀ c ∈ natDigits n.natAbs,
      ¬(c = ' ' ∨ c = '(' ∨ c = ')') ∧ c ≠ '"' ∧ c ≠ '\n' := by
    intro c hc
    obtain ⟨d, rfl⟩ := (natDigits_spec n.natAbs).2.1 c hc
    obtain ⟨_, _, hsp, hop, hcp, hq, hnl, _, _⟩ := digitChar_props d
    exact ⟨by tauto, hq, hnl⟩
  by_cases h : n < 0
  · rw [intRepr_neg n h] at hb
    rcases List.mem_cons.mp hb with rfl | hb
    · exact ⟨by decide, by decide, by decide⟩
    · exact hdig b hb
  · rw [intRepr_pos n h] at hb
    exact hdig b hb

theorem natDigits_cons (m : Nat) :
    ∃ c cs, natDigits m = c :: cs ∧ ∃ d, c = digitChar d := by
  obtain ⟨hne, hmem, _⟩ := natDigits_spec m
  rcases hh : natDigits m with _ | ⟨c, cs⟩
  · exact absurd hh hne
  · exact ⟨c, cs, rfl, hmem c (by rw [hh]; simp)⟩

theorem intRepr_head (n : Int) :
    ∃ c cs, (intRepr n).data = c :: cs ∧ (c = '-' ∨ ∃ d, c = digitChar d) := by
  obtain ⟨c, cs, hcc, hd⟩ := natDigits_cons n.natAbs
  by_cases h : n < 0
  · exact ⟨'-', natDigits n.natAbs, by rw [intRepr_neg n h], Or.inl rfl⟩
  · exact ⟨c, cs, by rw [intRepr_pos n h]; exact hcc, Or.inr hd⟩

theorem intRepr_ne_nil_tok (n : Int) : ¬(intRepr n = "nil") := by
  obtain ⟨c, cs, hd, hc⟩ := intRepr_head n
  intro h
  have hdd := congrArg String.data h
  rw [hd] at hdd
  have hcn : c = 'n' := by
    have : c :: cs = ['n', 'i', 'l'] := hdd
    exact (List.cons.injEq _ _ _ _).mp this |>.1
  rcases hc with rfl | ⟨d, rfl⟩
  · exact absurd hcn (by decide)
  · exact absurd hcn (digitChar_props d).2.2.2.2.2.2.2.1

theorem intRepr_ne_t_tok (n : Int) : ¬(intRepr n = "t") := by
  obtain ⟨c, cs, hd, hc⟩ := intRepr_head n
  intro h
  have hdd := congrArg String.data h
  rw [hd] at hdd
  have hcn : c = 't' := by
    have : c :: cs = ['t'] := hdd
    exact (List.cons.injEq _ _ _ _).mp this |>.1
  rcases hc with rfl | ⟨d, rfl⟩
  · exact absurd hcn (by decide)
  · exact absurd hcn (digitChar_props d).2.2.2.2.2.2.2.2

theorem natDigits_all_digit (m : Nat) : (natDigits m).all Char.isDigit = true := by
  rw [List.all_eq_true]
  intro c hc
  obtain ⟨d, rfl⟩ := (natDigits_spec m).2.1 c hc
  exact (digitChar_props d).1

theorem matchIntegerTok_intRepr (n : Int) : matchIntegerTok (intRepr n) = true := by
  obtain ⟨c, cs, hcc, _⟩ := natDigits_cons n.natAbs
  have h1 : (!(natDigits n.natAbs).isEmpty && (natDigits n.natAbs).all Char.isDigit)
      = true := by
    have hall := natDigits_all_digit n.natAbs
    rw [hcc] at hall ⊢
    simpa using hall
  by_cases h : n < 0
  · rw [intRepr_neg n h]
    unfold matchIntegerTok
    rw [Bool.or_eq_true]
    left
    exact h1
  · rw [intRepr_pos n h]
    unfold matchIntegerTok
    rw [Bool.or_eq_true]
    right
    exact h1

theorem pyIntOfString_intRepr (n : Int) : pyIntOfString (intRepr n) = n := by
  by_cases h : n < 0
  · rw [intRepr_neg n h]
    show -(digitsVal (natDigits n.natAbs) : Int) = n
    rw [(natDigits_spec n.natAbs).2.2]
    omega
  · rw [intRepr_pos n h]
    obtain ⟨c, cs, hcc, d, rfl⟩ := natDigits_cons n.natAbs
    show (match (⟨natDigits n.natAbs⟩ : String).data with
      | '-' :: ds => -(digitsVal ds : Int)
      | ds => (digitsVal ds : Int)) = n
    rw [show (⟨natDigits n.natAbs⟩ : String).data = natDigits n.natAbs from rfl, hcc]
    split
    · rename_i ds heq
      have : digitChar d = '-' := ((List.cons.injEq _ _ _ _).mp heq).1
      exact absurd this (digitChar_props d).2.1
    · rw [← hcc, (natDigits_spec n.natAbs).2.2]
      exact Int.natAbs_of_nonneg (not_lt.mp h)

theorem parseToken_intRepr (n : Int) : parseToken (intRepr n) = .ok (.integer n) := by
  rw [parseToken, if_neg (intRepr_ne_nil_tok n), if_neg (intRepr_ne_t_tok n),
    if_pos (matchIntegerTok_intRepr n), pyIntOfString_intRepr n]



/-- C9, counterexample: `parse` wraps even a single-token input in a
top-level `List`, so the round trip of the integer literal `1` renders as
`"(1)"`, not the `"1"` the claim requires. -/
theorem c9_counterexample : roundTrip "1" = .ok "(1)" := rfl

/-- C9, amended: for every integer literal, the display round trip yields
the literal wrapped in the parentheses of the top-level `List` produced
by `parse`: `render(parse(lex(str(n)))) = "(" ++ str(n) ++ ")"` (with
`str(n)` modelled by `intRepr`, which is also the renderer's display of
`Integer n`). -/
theorem c9_roundtrip_parenthesized (n : Int) :
    roundTrip (intRepr n) = .ok ("(" ++ intRepr n ++ ")") := by
  obtain ⟨c, cs, hd, _⟩ := intRepr_head n
  have hs : intRepr n = ⟨c :: cs⟩ := by
    rw [show intRepr n = (⟨(intRepr n).data⟩ : String) from rfl, hd]
  have hchars : ∀ b ∈ c :: cs, ¬(b = ' ' ∨ b = '(' ∨ b = ')') ∧ b ≠ '"' ∧ b ≠ '\n' := by
    intro b hb
    apply intRepr_chars n
    rw [hd]
    exact hb
  have htok : tokenize (intRepr n) = .ok [.word (intRepr n)] := by
    rw [hs]
    exact tokenize_single_word c cs hchars
  have hparse : parse [.word (intRepr n)] = .ok (.list [.integer n]) := by
    simp [parse, parseItems, parseOne, parseToken_intRepr n, Except.map,
      Except.bind, bind, Except.pure, pure]
  simp [roundTrip, htok, hparse, render, renderList, String.intercalate,
    String.intercalate.go]

end Lispy
